import Mathlib

/-!
Verification of the AAP Terraform provider's job resource
(`internal/provider/job_resource.go`).

The Go code is shallowly embedded: Terraform framework value types
(`types.Int64`, `types.String`, `types.Bool`, `types.List`) become small
inductives carrying their null/unknown/value tri-state; the HTTP client and
the retry mechanism are external collaborators, so their observable behaviour
is threaded in as explicit inputs (a launch response, a finite stream of
status-fetch outcomes available before the polling deadline elapses);
`diag.Diagnostics` becomes a list of severity-tagged diagnostics.  Go's
pass-by-value semantics for slice and struct parameters is preserved
faithfully: the poll closure receives copies of the model and of the
diagnostics, exactly as `retryUntilAAPJobReachesAnyFinalState` does.
-/

namespace Provider

/-- Severity of a framework diagnostic (`diag.Diagnostic`). -/
inductive Severity where
  | error
  | warning
deriving DecidableEq, Repr

/-- One framework diagnostic: severity, summary and detail strings. -/
structure Diagnostic where
  severity : Severity
  summary : String
  detail : String
deriving DecidableEq, Repr

/-- Whether a diagnostics list contains an error (`diag.Diagnostics.HasError`). -/
def hasError (ds : List Diagnostic) : Bool :=
  ds.any (fun d => d.severity = Severity.error)

/-- Terraform `types.Int64`: null, unknown, or a known 64-bit value. -/
inductive TFInt64 where
  | null
  | unknown
  | value (v : Int)
deriving DecidableEq, Repr

/-- Go `types.Int64.IsNull()`. -/
def TFInt64.IsNull : TFInt64 → Bool
  | .null => true
  | _ => false

/-- Go `types.Int64.ValueInt64()`: the value, or 0 when null or unknown. -/
def TFInt64.ValueInt64 : TFInt64 → Int
  | .value v => v
  | _ => 0

/-- Go `types.Int64.String()`: decimal text of the value, or the null/unknown
placeholder strings the framework renders. -/
def TFInt64.String : TFInt64 → String
  | .null => "<null>"
  | .unknown => "<unknown>"
  | .value v => toString v

/-- Terraform `types.String` (also covers `customtypes.AAPCustomStringValue`,
which only refines semantic equality, not the value accessors). -/
inductive TFString where
  | null
  | unknown
  | value (s : String)
deriving DecidableEq, Repr

/-- Go `types.String.ValueString()`: the value, or "" when null or unknown. -/
def TFString.ValueString : TFString → String
  | .value s => s
  | _ => ""

/-- Terraform `types.Bool`. -/
inductive TFBool where
  | null
  | unknown
  | value (b : Bool)
deriving DecidableEq, Repr

/-- Go `types.Bool.ValueBool()`: the value, or false when null or unknown. -/
def TFBool.ValueBool : TFBool → Bool
  | .value b => b
  | _ => false

/-- Terraform `types.List` of strings (the `ignored_fields` attribute):
null (`types.ListNull`), unknown, or a known list (`types.ListValue`). -/
inductive TFList where
  | null
  | unknown
  | value (l : List String)
deriving DecidableEq, Repr

/-- Terraform `types.Map` of strings (the `triggers` attribute). -/
inductive TFMap where
  | null
  | unknown
  | value (m : List (String × String))
deriving DecidableEq, Repr

/-- A dynamically-typed Go value, as stored in a `map[string]interface{}`. -/
inductive GoValue where
  | str (s : String)
  | num (n : Int)
  | boolean (b : Bool)
  | nil
deriving DecidableEq, Repr

/-- Go struct `JobAPIModel`: the AAP API's job body after JSON decoding.
Absent JSON fields decode to the Go zero values used as defaults here; the
`ignored_fields` map is kept as an association list of its entries.  The Go
field `Type` (JSON tag `job_type`) is called `JobType` here, `Type` being a
reserved word in Lean. -/
structure JobAPIModel where
  TemplateID : Int := 0
  JobType : String := ""
  URL : String := ""
  Status : String := ""
  Inventory : Int := 0
  ExtraVars : String := ""
  IgnoredFields : List (String × GoValue) := []
deriving DecidableEq, Repr

/-- Go struct `JobResourceModel`: the Terraform schema data.  The Go zero
value of every framework type is its null state. -/
structure JobResourceModel where
  TemplateID : TFInt64 := .null
  JobType : TFString := .null
  URL : TFString := .null
  Status : TFString := .null
  InventoryID : TFInt64 := .null
  ExtraVars : TFString := .null
  IgnoredFields : TFList := .null
  Triggers : TFMap := .null
  WaitForCompletion : TFBool := .null
  WaitForCompletionTimeout : TFInt64 := .null
  DestroyJobTemplateID : TFInt64 := .null
deriving DecidableEq, Repr

/-- The package-level rename table `keyMapping` for ignored-field names. -/
def keyMapping : List (String × String) := [("inventory", "inventory")]

/-- The table of job states from `IsFinalStateAAPJob`'s body, with the Go map
literal rendered as an association list (lookup is what the map provides). -/
def finalStates : List (String × Bool) :=
  [("new", false), ("pending", false), ("waiting", false), ("running", false),
   ("successful", true), ("failed", true), ("error", true), ("canceled", true)]

/-- Go `IsFinalStateAAPJob`: `result, isPresent := finalStates[state];
return isPresent && result`. -/
def IsFinalStateAAPJob (state : String) : Bool :=
  match finalStates.lookup state with
  | some result => result
  | none => false

/-- Key translation inside `ParseIgnoredFields`: `keyMapping[k]` when the key
is present in the rename table, the key itself otherwise. -/
def translateKey (k : String) : String :=
  match keyMapping.lookup k with
  | some v => v
  | none => k

/-- Go `(*JobResourceModel).ParseIgnoredFields`: sets the model's
`IgnoredFields` to `types.ListNull`, collects the (translated) keys of the
input map, and overrides with `types.ListValue` of those keys when there is at
least one.  Returned with the (always empty) named `diags` result.  The value
type is a parameter: the Go map holds `interface{}` values, which the function
never reads. -/
def ParseIgnoredFields {α : Type} (ignoredFields : List (String × α)) :
    TFList × List Diagnostic :=
  let keysList := ignoredFields.map (fun kv => translateKey kv.1)
  if keysList.length > 0 then (TFList.value keysList, []) else (TFList.null, [])

/-- An HTTP response body as seen by `json.Unmarshal` into `JobAPIModel`:
either malformed (unmarshal fails, carrying the decoder's error text) or a
decoded `JobAPIModel` (absent fields at their zero values). -/
inductive Body where
  | malformed (errText : String)
  | decoded (api : JobAPIModel)
deriving DecidableEq, Repr

/-- Go `(*JobResourceModel).ParseHttpResponse`: on unmarshal failure, add the
parse-error diagnostic and leave the model untouched; on success, refresh the
model's fields from the decoded body and run `ParseIgnoredFields`. -/
def ParseHttpResponse (r : JobResourceModel) (body : Body) :
    JobResourceModel × List Diagnostic :=
  match body with
  | .malformed errText =>
      (r, [⟨Severity.error, "Error parsing JSON response from AAP", errText⟩])
  | .decoded api =>
      let pif := ParseIgnoredFields api.IgnoredFields
      ({ r with JobType := TFString.value api.JobType
                URL := TFString.value api.URL
                Status := TFString.value api.Status
                TemplateID := TFInt64.value api.TemplateID
                InventoryID := TFInt64.value api.Inventory
                IgnoredFields := pif.1 },
       pif.2)

/-- A field of the JSON object `json.Marshal` produces for a `JobAPIModel`. -/
inductive JsonField where
  | num (n : Int)
  | str (s : String)
  | obj (entries : List (String × GoValue))
deriving DecidableEq, Repr

/-- The JSON object `json.Marshal` produces for a `JobAPIModel`, as the list
of its fields in Go struct order; every field carries `omitempty`, so fields
at their zero value (0, "", empty map) are left out. -/
def marshalJobAPIModel (j : JobAPIModel) : List (String × JsonField) :=
  (if j.TemplateID = 0 then [] else [("job_template", JsonField.num j.TemplateID)]) ++
  (if j.JobType = "" then [] else [("job_type", JsonField.str j.JobType)]) ++
  (if j.URL = "" then [] else [("url", JsonField.str j.URL)]) ++
  (if j.Status = "" then [] else [("status", JsonField.str j.Status)]) ++
  (if j.Inventory = 0 then [] else [("inventory", JsonField.num j.Inventory)]) ++
  (if j.ExtraVars = "" then [] else [("extra_vars", JsonField.str j.ExtraVars)]) ++
  (if j.IgnoredFields = [] then [] else [("ignored_fields", JsonField.obj j.IgnoredFields)])

/-- Go `(*JobResourceModel).CreateRequestBody`: substitute inventory 1 when
`InventoryID.ValueInt64()` is 0, build the `JobAPIModel` carrying only
`ExtraVars` and `Inventory`, and marshal it.  `json.Marshal` cannot fail on
this struct (ints, strings and a string-keyed map), so the error branch is
unreachable and the returned diagnostics are empty. -/
def CreateRequestBody (r : JobResourceModel) :
    List (String × JsonField) × List Diagnostic :=
  let inventoryID : Int :=
    if r.InventoryID.ValueInt64 = 0 then 1 else r.InventoryID.ValueInt64
  let job : JobAPIModel := { ExtraVars := r.ExtraVars.ValueString, Inventory := inventoryID }
  (marshalJobAPIModel job, [])

/-- Go `(*JobResourceModel).GetTemplateID`: `r.TemplateID.String()`. -/
def GetTemplateID (r : JobResourceModel) : String :=
  r.TemplateID.String

/-- The observable outcome of one `client.Get(url)` status fetch: the raw
response body (as it will look to the JSON decoder) and the transport error,
if any.  The fetch is an external-collaborator call, so consecutive outcomes
are threaded in as a stream. -/
structure FetchOutcome where
  body : Body
  err : Option String
deriving DecidableEq, Repr

/-- What one invocation of the retried function returns: a `retry.RetryableError`
with a message, or nil (the loop stops with success). -/
inductive AttemptResult where
  | retryable (msg : String)
  | success
deriving DecidableEq, Repr

/-- How a whole `retry.RetryContext` run ends: success (the retried function
returned nil) or the deadline elapsed, with the timeout error wrapping the
last attempt's error message. -/
inductive PollFinal where
  | success
  | timeoutExceeded (lastErr : String)
deriving DecidableEq, Repr

/-- The state after a `retry.RetryContext` run over the poll closure: the
closure's final captured model and diagnostics copies, the number of fetches
performed, and how the run ended. -/
structure PollDone where
  model : JobResourceModel
  diags : List Diagnostic
  fetches : Nat
  result : PollFinal
deriving DecidableEq, Repr

/-- One invocation of the closure returned by
`retryUntilAAPJobReachesAnyFinalState`, i.e. one poll attempt.  The closure's
captured state is the `model` and `diagnostics` parameters (copies of the
caller's values, Go passing both struct and slice by value); one attempt
consumes one fetch outcome `(responseBody, err)` from `client.Get`.  The body:
parse the response into the model (diagnostics appended to the closure's
copy), then `err != nil` is a retryable fetch error; otherwise a non-final
status is retryable and a final status ends the retry loop with success. -/
def pollAttempt (model : JobResourceModel) (diags : List Diagnostic)
    (f : FetchOutcome) : JobResourceModel × List Diagnostic × AttemptResult :=
  let pr := ParseHttpResponse model f.body
  let model := pr.1
  let diags := diags ++ pr.2
  match f.err with
  | some e => (model, diags, AttemptResult.retryable ("error fetching job status: " ++ e))
  | none =>
      if IsFinalStateAAPJob model.Status.ValueString then
        (model, diags, AttemptResult.success)
      else
        (model, diags, AttemptResult.retryable
          ("job at: " ++ model.URL.ValueString ++
           " hasn't yet reached a final state. Current state: " ++
           model.Status.ValueString))

/-- Modelled contract of the external `retry` package: on deadline expiry,
`retry.RetryContext` returns a timeout error whose message wraps the message
of the last error returned by the retried function. -/
def timeoutErrorMessage (lastErr : String) : String :=
  "timeout while waiting for job to reach a final state (last error: " ++ lastErr ++ ")"

/-- Driver for `retry.RetryContext` over the poll closure.  Real time is
abstracted by the finite stream of fetch outcomes that the deadline allows:
the retried function runs once per stream element until it reports success,
and an exhausted stream is the deadline elapsing, yielding the timeout error
with the last attempt's message.  `count` accumulates the number of fetches
performed; `model`/`diags` are the closure's captured copies. -/
def retryLoop (model : JobResourceModel) (diags : List Diagnostic)
    (count : Nat) (lastErr : String) : List FetchOutcome → PollDone
  | [] => ⟨model, diags, count, PollFinal.timeoutExceeded lastErr⟩
  | f :: rest =>
      let pa := pollAttempt model diags f
      match pa.2.2 with
      | AttemptResult.success => ⟨pa.1, pa.2.1, count + 1, PollFinal.success⟩
      | AttemptResult.retryable msg => retryLoop pa.1 pa.2.1 (count + 1) msg rest

/-- The observable outcome of the launch POST (`client.doRequest`): HTTP
status code (none when the transport failed before a response), raw body, and
transport error. -/
structure LaunchResponse where
  httpStatus : Option Nat
  body : Body
  err : Option String
deriving DecidableEq, Repr

/-- Modelled from the spec: `ValidateResponse` is repository code outside the
files given here.  Per the spec's launch contract, exactly one success status
code is required; any transport failure, missing response, or status outside
the expected set is a fatal error diagnostic carrying the response for
diagnosis. -/
def ValidateResponse (httpStatus : Option Nat) (err : Option String)
    (expectedStatuses : List Nat) : List Diagnostic :=
  match err with
  | some e => [⟨Severity.error, "Client request error", e⟩]
  | none =>
      match httpStatus with
      | none => [⟨Severity.error, "Client request error", "no response"⟩]
      | some st =>
          if st ∈ expectedStatuses then []
          else [⟨Severity.error, "Unexpected HTTP status code", toString st⟩]

/-- A record of one launch POST made through `client.doRequest`: the endpoint
from `client.getApiEndpoint()`, the template id segment from
`data.GetTemplateID()` (the POST URL being
`path.Join(endpoint, "job_templates", templateID, "launch")`), and the
marshalled request body. -/
structure LaunchCall where
  endpoint : String
  templateID : String
  body : List (String × JsonField)
deriving DecidableEq, Repr

/-- What `LaunchJob` leaves behind: the (possibly refreshed) model pointed to
by its argument, the accumulated diagnostics, and the launch POSTs made. -/
structure LaunchResult where
  model : JobResourceModel
  diags : List Diagnostic
  calls : List LaunchCall
deriving DecidableEq, Repr

/-- Go `(*JobResource).LaunchJob`: build the request body (its diagnostics
cannot be errors, see `CreateRequestBody`), POST it to the template's launch
endpoint, validate for status 201, and on success parse the response into the
model.  The POST is issued before validation, so it is recorded even when
validation fails. -/
def LaunchJob (apiEndpoint : String) (data : JobResourceModel)
    (resp : LaunchResponse) : LaunchResult :=
  let crb := CreateRequestBody data
  if hasError crb.2 then ⟨data, crb.2, []⟩
  else
    let call : LaunchCall := ⟨apiEndpoint, GetTemplateID data, crb.1⟩
    let diags := crb.2 ++ ValidateResponse resp.httpStatus resp.err [201]
    if hasError diags then ⟨data, diags, [call]⟩
    else
      let pr := ParseHttpResponse data resp.body
      ⟨pr.1, diags ++ pr.2, [call]⟩

/-- What an operation did to the Terraform state: left it untouched (returned
before `resp.State.Set`), set it to a model, or removed the resource. -/
inductive StateOutcome where
  | untouched
  | set (m : JobResourceModel)
  | removed
deriving DecidableEq, Repr

/-- The observable result of `Create` or `Update`: the response diagnostics
and what happened to the state. -/
structure CreateResponse where
  diagnostics : List Diagnostic
  state : StateOutcome
deriving DecidableEq, Repr

/-- Go `(*JobResource).Create`.  The plan binding (`req.Plan.Get`) is the
external declarative layer and is taken as already done, yielding `plan`.
Launch; on error diagnostics, return (state untouched).  When
`WaitForCompletion`, run the retry loop — note that the model and the
response diagnostics are passed to `retryUntilAAPJobReachesAnyFinalState` by
value, so the closure's refreshes and appended diagnostics never reach `data`
or `resp.Diagnostics` here.  A timeout from the retry is appended as an error
diagnostic and the operation returns before `resp.State.Set`; otherwise the
(launch-time) `data` is saved. -/
def Create (plan : JobResourceModel) (apiEndpoint : String)
    (launchResp : LaunchResponse) (fetches : List FetchOutcome) : CreateResponse :=
  let lr := LaunchJob apiEndpoint plan launchResp
  if hasError lr.diags then ⟨lr.diags, StateOutcome.untouched⟩
  else if lr.model.WaitForCompletion.ValueBool then
    let pd := retryLoop lr.model lr.diags 0 "" fetches
    match pd.result with
    | PollFinal.success => ⟨lr.diags, StateOutcome.set lr.model⟩
    | PollFinal.timeoutExceeded lastErr =>
        ⟨lr.diags ++ [⟨Severity.error, "error when waiting for AAP job to complete",
          timeoutErrorMessage lastErr⟩], StateOutcome.untouched⟩
  else ⟨lr.diags, StateOutcome.set lr.model⟩

/-- Go `(*JobResource).Update`: textually the same body as `Create` (plan
binding, launch, optional wait, save). -/
def Update (plan : JobResourceModel) (apiEndpoint : String)
    (launchResp : LaunchResponse) (fetches : List FetchOutcome) : CreateResponse :=
  let lr := LaunchJob apiEndpoint plan launchResp
  if hasError lr.diags then ⟨lr.diags, StateOutcome.untouched⟩
  else if lr.model.WaitForCompletion.ValueBool then
    let pd := retryLoop lr.model lr.diags 0 "" fetches
    match pd.result with
    | PollFinal.success => ⟨lr.diags, StateOutcome.set lr.model⟩
    | PollFinal.timeoutExceeded lastErr =>
        ⟨lr.diags ++ [⟨Severity.error, "error when waiting for AAP job to complete",
          timeoutErrorMessage lastErr⟩], StateOutcome.untouched⟩
  else ⟨lr.diags, StateOutcome.set lr.model⟩

/-- The observable outcome of one `client.GetWithStatus(url)` call: raw body,
client diagnostics, and the HTTP status code. -/
structure ReadFetch where
  body : Body
  diags : List Diagnostic
  httpStatus : Nat
deriving DecidableEq, Repr

/-- The observable result of `Read`: response diagnostics and the state
outcome (`removed` models `resp.State.RemoveResource`). -/
structure ReadResponse where
  diagnostics : List Diagnostic
  state : StateOutcome
deriving DecidableEq, Repr

/-- Go `(*JobResource).Read`.  State binding (`req.State.Get`) is taken as
done, yielding `stateData`.  Fetch via `GetWithStatus`; a 404 short-circuits:
one warning diagnostic, remove the resource, return — the body and the
client's diagnostics are never processed.  Otherwise append the client
diagnostics, parse the body into the model, and save it. -/
def Read (stateData : JobResourceModel) (fetch : ReadFetch) : ReadResponse :=
  if fetch.httpStatus = 404 then
    ⟨[⟨Severity.warning, "Job not found",
       "The job was not found. It may have been deleted. The job will be recreated."⟩],
     StateOutcome.removed⟩
  else
    let diags := fetch.diags
    if hasError diags then ⟨diags, StateOutcome.untouched⟩
    else
      let pr := ParseHttpResponse stateData fetch.body
      let diags := diags ++ pr.2
      if hasError diags then ⟨diags, StateOutcome.untouched⟩
      else ⟨diags, StateOutcome.set pr.1⟩

/-- The temporary model Go's `Delete` builds for the destroy job: the
destroy template id plus the original record's inventory, extra vars and wait
settings; every other field is the Go zero value (null). -/
def mkDestroyJobData (data : JobResourceModel) : JobResourceModel :=
  { TemplateID := data.DestroyJobTemplateID
    InventoryID := data.InventoryID
    ExtraVars := data.ExtraVars
    WaitForCompletion := data.WaitForCompletion
    WaitForCompletionTimeout := data.WaitForCompletionTimeout }

/-- The observable result of `Delete`: response diagnostics, the launch POSTs
made, and the number of status fetches performed — together, every remote
call. -/
structure DeleteResponse where
  diagnostics : List Diagnostic
  launches : List LaunchCall
  statusFetches : Nat
deriving DecidableEq, Repr

/-- Go `(*JobResource).Delete`.  State binding is taken as done, yielding
`stateData`.  When `DestroyJobTemplateID` is non-null and positive, build the
destroy model, launch it, and optionally wait (same by-value closure as
Create); otherwise do nothing — no remote call of any kind. -/
def Delete (stateData : JobResourceModel) (apiEndpoint : String)
    (launchResp : LaunchResponse) (fetches : List FetchOutcome) : DeleteResponse :=
  if stateData.DestroyJobTemplateID.IsNull = false ∧
      stateData.DestroyJobTemplateID.ValueInt64 > 0 then
    let destroyJobData := mkDestroyJobData stateData
    let lr := LaunchJob apiEndpoint destroyJobData launchResp
    if hasError lr.diags then ⟨lr.diags, lr.calls, 0⟩
    else if lr.model.WaitForCompletion.ValueBool then
      let pd := retryLoop lr.model lr.diags 0 "" fetches
      match pd.result with
      | PollFinal.success => ⟨lr.diags, lr.calls, pd.fetches⟩
      | PollFinal.timeoutExceeded lastErr =>
          ⟨lr.diags ++ [⟨Severity.error, "error when waiting for destroy job to complete",
            timeoutErrorMessage lastErr⟩], lr.calls, pd.fetches⟩
    else ⟨lr.diags, lr.calls, 0⟩
  else ⟨[], [], 0⟩

/-- A status fetch that succeeds at the transport level and decodes to a body
whose only set field is `status` — the shape of a poll response. -/
def fetchOk (s : String) : FetchOutcome := ⟨Body.decoded { Status := s }, none⟩

/-- A status fetch whose body does not decode (`json.Unmarshal` error), with
no transport error. -/
def fetchMalformed : FetchOutcome :=
  ⟨Body.malformed "invalid character 'i' looking for beginning of value", none⟩

/-- A decoded launch response body: job 42 of template 7, initially pending. -/
def apiPending : JobAPIModel :=
  { TemplateID := 7, JobType := "run", URL := "/jobs/42/", Status := "pending", Inventory := 5 }

/-- A successful launch: HTTP 201 with the pending job body. -/
def launch201 : LaunchResponse := ⟨some 201, Body.decoded apiPending, none⟩

/-- A plan that waits for completion: template 7, inventory 5, 120 s timeout. -/
def planWait : JobResourceModel :=
  { TemplateID := TFInt64.value 7, InventoryID := TFInt64.value 5,
    ExtraVars := TFString.value "foo: bar",
    WaitForCompletion := TFBool.value true,
    WaitForCompletionTimeout := TFInt64.value 120 }

/-- A prior state carrying a destroy template (id 9) that waits for the
cleanup job: the inputs `Delete` reads. -/
def stateDestroy9 : JobResourceModel :=
  { TemplateID := TFInt64.value 7, JobType := TFString.value "run",
    URL := TFString.value "/jobs/42/", Status := TFString.value "successful",
    InventoryID := TFInt64.value 5, ExtraVars := TFString.value "foo: bar",
    WaitForCompletion := TFBool.value true,
    WaitForCompletionTimeout := TFInt64.value 1,
    DestroyJobTemplateID := TFInt64.value 9 }

/-- The same prior state with no destroy template configured. -/
def stateNoDestroy : JobResourceModel :=
  { stateDestroy9 with DestroyJobTemplateID := TFInt64.null }

end Provider

namespace ProofsAAP

open Provider

/-- One poll attempt on a fetch that decodes to a terminal status ends the
retry loop (the closure returns nil). -/
lemma pollAttempt_ok_final (m : JobResourceModel) (d : List Diagnostic)
    (f : FetchOutcome) (api : JobAPIModel)
    (herr : f.err = none) (hbody : f.body = Body.decoded api)
    (hfin : IsFinalStateAAPJob api.Status = true) :
    (pollAttempt m d f).2.2 = AttemptResult.success := by
  simp [pollAttempt, ParseHttpResponse, hbody, herr, TFString.ValueString, hfin]

/-- One poll attempt on a fetch that decodes to a non-terminal status is
classified retryable. -/
lemma pollAttempt_ok_nonfinal (m : JobResourceModel) (d : List Diagnostic)
    (f : FetchOutcome) (api : JobAPIModel)
    (herr : f.err = none) (hbody : f.body = Body.decoded api)
    (hfin : IsFinalStateAAPJob api.Status = false) :
    ∃ msg, (pollAttempt m d f).2.2 = AttemptResult.retryable msg := by
  simp [pollAttempt, ParseHttpResponse, hbody, herr, TFString.ValueString, hfin]

/-- The retry loop on a stream whose prefix is all non-terminal successful
fetches followed by a terminal one: it consumes exactly the prefix plus the
terminal fetch, ends with success, and never looks past the terminal fetch. -/
lemma retryLoop_first_final (t : FetchOutcome) (post post' : List FetchOutcome)
    (ht : t.err = none ∧ ∃ api, t.body = Body.decoded api ∧
      IsFinalStateAAPJob api.Status = true)
    (pre : List FetchOutcome) :
    ∀ (model : JobResourceModel) (diags : List Diagnostic) (count : Nat) (lastErr : String),
      (∀ f ∈ pre, f.err = none ∧ ∃ api, f.body = Body.decoded api ∧
        IsFinalStateAAPJob api.Status = false) →
      (retryLoop model diags count lastErr (pre ++ t :: post)).fetches = count + (pre.length + 1) ∧
      (retryLoop model diags count lastErr (pre ++ t :: post)).result = PollFinal.success ∧
      retryLoop model diags count lastErr (pre ++ t :: post) =
        retryLoop model diags count lastErr (pre ++ t :: post') := by
  induction pre with
  | nil =>
      intro model diags count lastErr _
      obtain ⟨herr, api, hbody, hfin⟩ := ht
      have hs := pollAttempt_ok_final model diags t api herr hbody hfin
      simp [retryLoop, hs]
  | cons f fs ih =>
      intro model diags count lastErr hpre
      obtain ⟨herr, api, hbody, hfin⟩ := hpre f (List.mem_cons_self f fs)
      obtain ⟨msg, hmsg⟩ := pollAttempt_ok_nonfinal model diags f api herr hbody hfin
      have hrest : ∀ g ∈ fs, g.err = none ∧ ∃ api, g.body = Body.decoded api ∧
          IsFinalStateAAPJob api.Status = false :=
        fun g hg => hpre g (List.mem_cons_of_mem f hg)
      have IH := ih (pollAttempt model diags f).1 (pollAttempt model diags f).2.1
        (count + 1) msg hrest
      simp only [List.cons_append, retryLoop, hmsg, List.append_eq]
      refine ⟨?_, IH.2.1, IH.2.2⟩
      rw [IH.1]
      simp [List.length_cons]
      omega

end ProofsAAP

/-- C1: the terminal-state classifier returns true exactly on the four
terminal statuses, and false on every other string (the non-terminal
vocabulary included). -/
theorem C1_isFinalState_iff_terminal (s : String) :
    Provider.IsFinalStateAAPJob s = true ↔
      s = "successful" ∨ s = "failed" ∨ s = "error" ∨ s = "canceled" := by
  by_cases h1 : s = "new"
  · subst h1; decide
  by_cases h2 : s = "pending"
  · subst h2; decide
  by_cases h3 : s = "waiting"
  · subst h3; decide
  by_cases h4 : s = "running"
  · subst h4; decide
  by_cases h5 : s = "successful"
  · subst h5; decide
  by_cases h6 : s = "failed"
  · subst h6; decide
  by_cases h7 : s = "error"
  · subst h7; decide
  by_cases h8 : s = "canceled"
  · subst h8; decide
  have e1 : (s == "new") = false := beq_eq_false_iff_ne.mpr h1
  have e2 : (s == "pending") = false := beq_eq_false_iff_ne.mpr h2
  have e3 : (s == "waiting") = false := beq_eq_false_iff_ne.mpr h3
  have e4 : (s == "running") = false := beq_eq_false_iff_ne.mpr h4
  have e5 : (s == "successful") = false := beq_eq_false_iff_ne.mpr h5
  have e6 : (s == "failed") = false := beq_eq_false_iff_ne.mpr h6
  have e7 : (s == "error") = false := beq_eq_false_iff_ne.mpr h7
  have e8 : (s == "canceled") = false := beq_eq_false_iff_ne.mpr h8
  simp [Provider.IsFinalStateAAPJob, Provider.finalStates, List.lookup,
    e1, e2, e3, e4, e5, e6, e7, e8, h5, h6, h7, h8]

/-- C2: for a fetch stream whose first terminal status appears at position
n (a prefix of n-1 successful non-terminal fetches, then a terminal one), the
completion poller performs exactly n fetches, ends reporting success right
after the n-th, never consumes anything past the terminal fetch (the result
is the same for any continuation of the stream), and classifies every
successful non-terminal fetch as retryable. -/
theorem C2_poller_stops_at_first_terminal
    (pre post post' : List Provider.FetchOutcome) (t : Provider.FetchOutcome)
    (model : Provider.JobResourceModel) (diags : List Provider.Diagnostic)
    (hpre : ∀ f ∈ pre, f.err = none ∧ ∃ api, f.body = Provider.Body.decoded api ∧
      Provider.IsFinalStateAAPJob api.Status = false)
    (ht : t.err = none ∧ ∃ api, t.body = Provider.Body.decoded api ∧
      Provider.IsFinalStateAAPJob api.Status = true) :
    (Provider.retryLoop model diags 0 "" (pre ++ t :: post)).fetches = pre.length + 1 ∧
    (Provider.retryLoop model diags 0 "" (pre ++ t :: post)).result = Provider.PollFinal.success ∧
    Provider.retryLoop model diags 0 "" (pre ++ t :: post) =
      Provider.retryLoop model diags 0 "" (pre ++ t :: post') ∧
    (∀ (m : Provider.JobResourceModel) (d : List Provider.Diagnostic)
      (f : Provider.FetchOutcome) (api : Provider.JobAPIModel),
      f.err = none → f.body = Provider.Body.decoded api →
      Provider.IsFinalStateAAPJob api.Status = false →
      ∃ msg, (Provider.pollAttempt m d f).2.2 = Provider.AttemptResult.retryable msg) := by
  have h := ProofsAAP.retryLoop_first_final t post post' ht pre model diags 0 "" hpre
  exact ⟨by simpa using h.1, h.2.1, h.2.2,
    fun m d f api he hb hf => ProofsAAP.pollAttempt_ok_nonfinal m d f api he hb hf⟩

/-- C2 witness: the stream pending, running, successful, running takes exactly
3 fetches and ends with success. -/
theorem C2_poller_stops_witness :
    (Provider.retryLoop {} [] 0 ""
      [Provider.fetchOk "pending", Provider.fetchOk "running",
       Provider.fetchOk "successful", Provider.fetchOk "running"]).fetches = 3 ∧
    (Provider.retryLoop {} [] 0 ""
      [Provider.fetchOk "pending", Provider.fetchOk "running",
       Provider.fetchOk "successful", Provider.fetchOk "running"]).result =
      Provider.PollFinal.success := by
  have h := C2_poller_stops_at_first_terminal
    [Provider.fetchOk "pending", Provider.fetchOk "running"] [Provider.fetchOk "running"] []
    (Provider.fetchOk "successful") {} []
    (by
      intro f hf
      simp only [List.mem_cons, List.not_mem_nil, or_false] at hf
      rcases hf with rfl | rfl
      · exact ⟨rfl, { Status := "pending" }, rfl, by decide⟩
      · exact ⟨rfl, { Status := "running" }, rfl, by decide⟩)
    ⟨rfl, { Status := "successful" }, rfl, by decide⟩
  exact ⟨h.1, h.2.1⟩

/-- C3 (code bug): a waited Create whose launch response says "pending" and
whose single poll fetch says "successful" persists the launch-time record:
the saved state's status is "pending", even though the poll loop's own copy
of the record was refreshed to "successful" — `data` and `resp.Diagnostics`
are passed to `retryUntilAAPJobReachesAnyFinalState` by value, so the
refreshed record never reaches `resp.State.Set`. -/
theorem C3_persisted_status_is_launch_status :
    (Provider.Create Provider.planWait "/api/v2" Provider.launch201
        [Provider.fetchOk "successful"]).state =
      Provider.StateOutcome.set
        ((Provider.LaunchJob "/api/v2" Provider.planWait Provider.launch201).model) ∧
    ((Provider.LaunchJob "/api/v2" Provider.planWait Provider.launch201).model.Status =
      Provider.TFString.value "pending") ∧
    ((Provider.retryLoop
        (Provider.LaunchJob "/api/v2" Provider.planWait Provider.launch201).model
        (Provider.LaunchJob "/api/v2" Provider.planWait Provider.launch201).diags 0 ""
        [Provider.fetchOk "successful"]).model.Status =
      Provider.TFString.value "successful") ∧
    Provider.hasError (Provider.Create Provider.planWait "/api/v2" Provider.launch201
        [Provider.fetchOk "successful"]).diagnostics = false := by
  decide

namespace ProofsAAP

open Provider

/-- A retry loop whose whole available stream is successful non-terminal
fetches ends with the timeout outcome, never success. -/
lemma retryLoop_all_nonfinal :
    ∀ (l : List FetchOutcome) (model : JobResourceModel) (diags : List Diagnostic)
      (count : Nat) (lastErr : String),
      (∀ f ∈ l, f.err = none ∧ ∃ api, f.body = Body.decoded api ∧
        IsFinalStateAAPJob api.Status = false) →
      ∃ e, (retryLoop model diags count lastErr l).result = PollFinal.timeoutExceeded e := by
  intro l
  induction l with
  | nil =>
      intro model diags count lastErr _
      exact ⟨lastErr, rfl⟩
  | cons f fs ih =>
      intro model diags count lastErr h
      obtain ⟨herr, api, hbody, hfin⟩ := h f (List.mem_cons_self f fs)
      obtain ⟨msg, hmsg⟩ := pollAttempt_ok_nonfinal model diags f api herr hbody hfin
      have IH := ih (pollAttempt model diags f).1 (pollAttempt model diags f).2.1
        (count + 1) msg (fun g hg => h g (List.mem_cons_of_mem f hg))
      simpa [retryLoop, hmsg] using IH

end ProofsAAP

/-- C4: a waited Create or Update whose launch succeeded but whose deadline
elapses with only non-terminal fetches (such as "running" forever) appends
the timeout error diagnostic, leaves the response with an error, and returns
before saving anything to state — a timeout is never reported as success. -/
theorem C4_timeout_is_error_not_success
    (plan : Provider.JobResourceModel) (ep : String)
    (lresp : Provider.LaunchResponse) (fetches : List Provider.FetchOutcome)
    (hlaunch : Provider.hasError (Provider.LaunchJob ep plan lresp).diags = false)
    (hwait : (Provider.LaunchJob ep plan lresp).model.WaitForCompletion.ValueBool = true)
    (hfetch : ∀ f ∈ fetches, f.err = none ∧ ∃ api, f.body = Provider.Body.decoded api ∧
      Provider.IsFinalStateAAPJob api.Status = false) :
    ((∃ d ∈ (Provider.Create plan ep lresp fetches).diagnostics,
        d.severity = Provider.Severity.error ∧
        d.summary = "error when waiting for AAP job to complete") ∧
      Provider.hasError (Provider.Create plan ep lresp fetches).diagnostics = true ∧
      (Provider.Create plan ep lresp fetches).state = Provider.StateOutcome.untouched) ∧
    ((∃ d ∈ (Provider.Update plan ep lresp fetches).diagnostics,
        d.severity = Provider.Severity.error ∧
        d.summary = "error when waiting for AAP job to complete") ∧
      Provider.hasError (Provider.Update plan ep lresp fetches).diagnostics = true ∧
      (Provider.Update plan ep lresp fetches).state = Provider.StateOutcome.untouched) := by
  obtain ⟨e, he⟩ := ProofsAAP.retryLoop_all_nonfinal fetches
    (Provider.LaunchJob ep plan lresp).model (Provider.LaunchJob ep plan lresp).diags
    0 "" hfetch
  have hmem : (⟨Provider.Severity.error, "error when waiting for AAP job to complete",
      Provider.timeoutErrorMessage e⟩ : Provider.Diagnostic) ∈
      (Provider.LaunchJob ep plan lresp).diags ++
        [⟨Provider.Severity.error, "error when waiting for AAP job to complete",
          Provider.timeoutErrorMessage e⟩] := by simp
  constructor
  · simp only [Provider.Create, hlaunch, hwait, Bool.false_eq_true, if_false, if_true, he]
    refine ⟨⟨_, hmem, ?_, ?_⟩, ?_, ?_⟩
    · rfl
    · rfl
    · simp [Provider.hasError]
    · trivial
  · simp only [Provider.Update, hlaunch, hwait, Bool.false_eq_true, if_false, if_true, he]
    refine ⟨⟨_, hmem, ?_, ?_⟩, ?_, ?_⟩
    · rfl
    · rfl
    · simp [Provider.hasError]
    · trivial

/-- C4 witness: with the pending launch and a stream of two "running"
fetches, Create ends with an error and leaves the state untouched. -/
theorem C4_timeout_witness :
    Provider.hasError (Provider.Create Provider.planWait "/api/v2" Provider.launch201
      [Provider.fetchOk "running", Provider.fetchOk "running"]).diagnostics = true ∧
    (Provider.Create Provider.planWait "/api/v2" Provider.launch201
      [Provider.fetchOk "running", Provider.fetchOk "running"]).state =
      Provider.StateOutcome.untouched := by
  have h := C4_timeout_is_error_not_success Provider.planWait "/api/v2" Provider.launch201
    [Provider.fetchOk "running", Provider.fetchOk "running"] (by decide) (by decide)
    (by
      intro f hf
      simp only [List.mem_cons, List.not_mem_nil, or_false] at hf
      rcases hf with rfl | rfl
      · exact ⟨rfl, { Status := "running" }, rfl, by decide⟩
      · exact ⟨rfl, { Status := "running" }, rfl, by decide⟩)
  exact ⟨h.1.2.1, h.1.2.2⟩

/-- C5 (code bug): during a waited Create whose polls return malformed bodies
until the deadline, the parse-error diagnostics are appended only to the
closure's by-value copy of `resp.Diagnostics` and are dropped: the operation
ends with an error, but no surfaced diagnostic describes the parse failure —
only the generic wait-timeout diagnostic reaches the caller. -/
theorem C5_parse_errors_dropped :
    ((Provider.retryLoop
        (Provider.LaunchJob "/api/v2" Provider.planWait Provider.launch201).model
        (Provider.LaunchJob "/api/v2" Provider.planWait Provider.launch201).diags 0 ""
        [Provider.fetchMalformed, Provider.fetchMalformed]).diags.any
      (fun d => d.summary = "Error parsing JSON response from AAP") = true) ∧
    ((Provider.Create Provider.planWait "/api/v2" Provider.launch201
        [Provider.fetchMalformed, Provider.fetchMalformed]).diagnostics.any
      (fun d => d.summary = "Error parsing JSON response from AAP") = false) ∧
    Provider.hasError (Provider.Create Provider.planWait "/api/v2" Provider.launch201
        [Provider.fetchMalformed, Provider.fetchMalformed]).diagnostics = true := by
  decide

/-- C6: a Read whose status fetch reports HTTP 404 produces exactly the one
"Job not found" warning (no error diagnostic), removes the resource from
state, and ignores the response body and client diagnostics entirely — the
read does not fail. -/
theorem C6_read_404_warns_and_removes
    (stateData : Provider.JobResourceModel) (fetch : Provider.ReadFetch)
    (h : fetch.httpStatus = 404) :
    (Provider.Read stateData fetch).diagnostics =
      [⟨Provider.Severity.warning, "Job not found",
        "The job was not found. It may have been deleted. The job will be recreated."⟩] ∧
    (Provider.Read stateData fetch).state = Provider.StateOutcome.removed ∧
    Provider.hasError (Provider.Read stateData fetch).diagnostics = false := by
  simp [Provider.Read, h, Provider.hasError]

/-- C6 witness: a 404 fetch carrying client error diagnostics and a malformed
body still yields only the warning and the removal. -/
theorem C6_read_404_witness :
    (Provider.Read {} ⟨Provider.Body.malformed "x",
      [⟨Provider.Severity.error, "e", "e"⟩], 404⟩).state =
      Provider.StateOutcome.removed ∧
    Provider.hasError (Provider.Read {}
      ⟨Provider.Body.malformed "x",
        [⟨Provider.Severity.error, "e", "e"⟩], 404⟩).diagnostics = false := by
  have h := C6_read_404_warns_and_removes {}
    ⟨Provider.Body.malformed "x", [⟨Provider.Severity.error, "e", "e"⟩], 404⟩ rfl
  exact ⟨h.2.1, h.2.2⟩

namespace ProofsAAP

open Provider

/-- The launch controller records exactly the one POST to the template's launch
endpoint, whatever the response outcome (the request is issued before
validation). -/
lemma LaunchJob_calls (ep : String) (d : JobResourceModel) (resp : LaunchResponse) :
    (LaunchJob ep d resp).calls = [⟨ep, GetTemplateID d, (CreateRequestBody d).1⟩] := by
  simp only [LaunchJob, CreateRequestBody, hasError, List.any_nil]
  split
  · simp_all
  · split <;> rfl

/-- With a positive destroy template id, `Delete`'s launch calls are exactly
those of the one `LaunchJob` run on the destroy model, in every branch. -/
lemma Delete_launches_pos (stateData : JobResourceModel) (ep : String)
    (lresp : LaunchResponse) (fetches : List FetchOutcome)
    (hcond : stateData.DestroyJobTemplateID.IsNull = false ∧
      stateData.DestroyJobTemplateID.ValueInt64 > 0) :
    (Delete stateData ep lresp fetches).launches =
      (LaunchJob ep (mkDestroyJobData stateData) lresp).calls := by
  simp only [Delete, if_pos hcond]
  by_cases h1 : hasError (LaunchJob ep (mkDestroyJobData stateData) lresp).diags
  · simp [h1]
  · simp only [h1, Bool.false_eq_true, if_false]
    by_cases h2 : (LaunchJob ep (mkDestroyJobData stateData) lresp).model.WaitForCompletion.ValueBool
    · simp only [h2, if_true]
      rcases hres : (retryLoop (LaunchJob ep (mkDestroyJobData stateData) lresp).model
        (LaunchJob ep (mkDestroyJobData stateData) lresp).diags 0 "" fetches).result with _ | e
      · simp [hres]
      · simp [hres]
    · simp [h2]

end ProofsAAP

/-- C7: a Delete with a null or non-positive destroy template id makes zero
remote calls (no launch, no status fetch, no diagnostics); a Delete with a
positive destroy template id t performs exactly one launch, targeting
template t with a body built from the destroy model, which reuses the
original record's inventory id, extra vars, wait flag and wait timeout. -/
theorem C7_delete_launches (stateData : Provider.JobResourceModel) (ep : String)
    (lresp : Provider.LaunchResponse) (fetches : List Provider.FetchOutcome) :
    ((stateData.DestroyJobTemplateID.IsNull = true ∨
        stateData.DestroyJobTemplateID.ValueInt64 ≤ 0) →
      Provider.Delete stateData ep lresp fetches = ⟨[], [], 0⟩) ∧
    (∀ t : Int, stateData.DestroyJobTemplateID = Provider.TFInt64.value t → 0 < t →
      (Provider.Delete stateData ep lresp fetches).launches =
        [⟨ep, Provider.TFInt64.String (Provider.TFInt64.value t),
          (Provider.CreateRequestBody (Provider.mkDestroyJobData stateData)).1⟩] ∧
      (Provider.mkDestroyJobData stateData).TemplateID = stateData.DestroyJobTemplateID ∧
      (Provider.mkDestroyJobData stateData).InventoryID = stateData.InventoryID ∧
      (Provider.mkDestroyJobData stateData).ExtraVars = stateData.ExtraVars ∧
      (Provider.mkDestroyJobData stateData).WaitForCompletion = stateData.WaitForCompletion ∧
      (Provider.mkDestroyJobData stateData).WaitForCompletionTimeout =
        stateData.WaitForCompletionTimeout) := by
  constructor
  · intro h
    have hneg : ¬(stateData.DestroyJobTemplateID.IsNull = false ∧
        stateData.DestroyJobTemplateID.ValueInt64 > 0) := by
      rcases h with h | h
      · simp [h]
      · rintro ⟨-, h2⟩
        omega
    simp [Provider.Delete, hneg]
  · intro t ht hpos
    have hval : stateData.DestroyJobTemplateID.ValueInt64 = t := by
      rw [ht]; rfl
    have hcond : stateData.DestroyJobTemplateID.IsNull = false ∧
        stateData.DestroyJobTemplateID.ValueInt64 > 0 := by
      constructor
      · rw [ht]; rfl
      · omega
    have hl := ProofsAAP.Delete_launches_pos stateData ep lresp fetches hcond
    have hc := ProofsAAP.LaunchJob_calls ep (Provider.mkDestroyJobData stateData) lresp
    refine ⟨?_, rfl, rfl, rfl, rfl, rfl⟩
    rw [hl, hc]
    have hid : Provider.GetTemplateID (Provider.mkDestroyJobData stateData) =
        Provider.TFInt64.String (Provider.TFInt64.value t) := by
      simp [Provider.GetTemplateID, Provider.mkDestroyJobData, ht]
    rw [hid]

/-- C7 witness: with no destroy template the Delete is the empty response;
with destroy template 9 the one launch targets template "9" with the
destroy-model body. -/
theorem C7_delete_witness :
    Provider.Delete Provider.stateNoDestroy "/api/v2" Provider.launch201
      [Provider.fetchOk "successful"] = ⟨[], [], 0⟩ ∧
    (Provider.Delete Provider.stateDestroy9 "/api/v2" Provider.launch201
      [Provider.fetchOk "successful"]).launches =
      [⟨"/api/v2", "9",
        (Provider.CreateRequestBody (Provider.mkDestroyJobData Provider.stateDestroy9)).1⟩] := by
  have h1 := (C7_delete_launches Provider.stateNoDestroy "/api/v2" Provider.launch201
    [Provider.fetchOk "successful"]).1 (Or.inl rfl)
  have h2 := (C7_delete_launches Provider.stateDestroy9 "/api/v2" Provider.launch201
    [Provider.fetchOk "successful"]).2 9 rfl (by norm_num)
  exact ⟨h1, h2.1⟩

/-- C8 counterexample: a Delete with destroy template 9, wait on, a 1 s
deadline and a cleanup job still "running" when the deadline elapses ends
WITH an error diagnostic — the cleanup outcome is not isolated from the
Delete response as claimed. -/
theorem C8_delete_cleanup_counterexample :
    Provider.hasError (Provider.Delete Provider.stateDestroy9 "/api/v2" Provider.launch201
      [Provider.fetchOk "running"]).diagnostics = true := by
  decide

/-- C8 amended: for a Delete with a positive destroy template id, the cleanup
job's result decides the response: a failed cleanup launch, or a cleanup wait
that times out, ends Delete with error diagnostics (which blocks the
framework's removal of the resource); Delete ends without error only when
the launch is clean and any requested wait sees a terminal status in time. -/
theorem C8_cleanup_failures_surface
    (stateData : Provider.JobResourceModel) (ep : String)
    (lresp : Provider.LaunchResponse) (fetches : List Provider.FetchOutcome)
    (t : Int) (ht : stateData.DestroyJobTemplateID = Provider.TFInt64.value t)
    (hpos : 0 < t) :
    (Provider.hasError
        (Provider.LaunchJob ep (Provider.mkDestroyJobData stateData) lresp).diags = true →
      Provider.hasError (Provider.Delete stateData ep lresp fetches).diagnostics = true) ∧
    (Provider.hasError
        (Provider.LaunchJob ep (Provider.mkDestroyJobData stateData) lresp).diags = false →
      ((Provider.LaunchJob ep (Provider.mkDestroyJobData stateData)
          lresp).model.WaitForCompletion.ValueBool = false →
        (Provider.Delete stateData ep lresp fetches).diagnostics =
          (Provider.LaunchJob ep (Provider.mkDestroyJobData stateData) lresp).diags) ∧
      ((Provider.LaunchJob ep (Provider.mkDestroyJobData stateData)
          lresp).model.WaitForCompletion.ValueBool = true →
        ((Provider.retryLoop
            (Provider.LaunchJob ep (Provider.mkDestroyJobData stateData) lresp).model
            (Provider.LaunchJob ep (Provider.mkDestroyJobData stateData) lresp).diags 0 ""
            fetches).result = Provider.PollFinal.success →
          (Provider.Delete stateData ep lresp fetches).diagnostics =
            (Provider.LaunchJob ep (Provider.mkDestroyJobData stateData) lresp).diags) ∧
        (∀ e, (Provider.retryLoop
            (Provider.LaunchJob ep (Provider.mkDestroyJobData stateData) lresp).model
            (Provider.LaunchJob ep (Provider.mkDestroyJobData stateData) lresp).diags 0 ""
            fetches).result = Provider.PollFinal.timeoutExceeded e →
          Provider.hasError (Provider.Delete stateData ep lresp fetches).diagnostics = true))) := by
  have hcond : stateData.DestroyJobTemplateID.IsNull = false ∧
      stateData.DestroyJobTemplateID.ValueInt64 > 0 := by
    constructor
    · rw [ht]; rfl
    · have : stateData.DestroyJobTemplateID.ValueInt64 = t := by rw [ht]; rfl
      omega
  constructor
  · intro hL
    simp [Provider.Delete, if_pos hcond, hL]
  · intro hL
    constructor
    · intro hw
      simp [Provider.Delete, if_pos hcond, hL, hw]
    · intro hw
      constructor
      · intro hs
        simp [Provider.Delete, if_pos hcond, hL, hw, hs]
      · intro e he
        simp only [Provider.Delete, if_pos hcond, hL, Bool.false_eq_true, if_false,
          hw, if_true, he]
        simp [Provider.hasError]

/-- C8 witness: with destroy template 9 and a first fetch already terminal,
the Delete's diagnostics are exactly the (error-free) launch diagnostics. -/
theorem C8_cleanup_witness :
    (Provider.Delete Provider.stateDestroy9 "/api/v2" Provider.launch201
      [Provider.fetchOk "successful"]).diagnostics =
      (Provider.LaunchJob "/api/v2" (Provider.mkDestroyJobData Provider.stateDestroy9)
        Provider.launch201).diags := by
  have h := C8_cleanup_failures_surface Provider.stateDestroy9 "/api/v2" Provider.launch201
    [Provider.fetchOk "successful"] 9 rfl (by norm_num)
  exact ((h.2 (by decide)).2 (by decide)).1 (by decide)

/-- C9 counterexample: a record whose extra vars are absent (null, so
`ValueString()` is "") yields a launch body with NO `extra_vars` field at
all — `omitempty` drops it — so the body does not carry the record's
extraVars string for this input, against the claim's "for every launch
request body". -/
theorem C9_extraVars_omitted_counterexample :
    (Provider.CreateRequestBody
      { InventoryID := Provider.TFInt64.value 5 }).1.lookup "extra_vars" = none ∧
    ¬(("extra_vars", Provider.JsonField.str
        (({ InventoryID := Provider.TFInt64.value 5 } :
          Provider.JobResourceModel).ExtraVars.ValueString)) ∈
      (Provider.CreateRequestBody { InventoryID := Provider.TFInt64.value 5 }).1) := by
  decide

/-- C9 amended: the launch body carries `inventory = 1` when the record's
inventory id is absent or zero and the given id otherwise, never fails, and
carries the extraVars string verbatim (unparsed) exactly when it is
nonempty — an empty or absent extraVars is omitted from the body. -/
theorem C9_request_body (r : Provider.JobResourceModel) :
    (Provider.CreateRequestBody r).2 = [] ∧
    (r.InventoryID.ValueInt64 = 0 →
      (Provider.CreateRequestBody r).1.lookup "inventory" =
        some (Provider.JsonField.num 1)) ∧
    (r.InventoryID.ValueInt64 ≠ 0 →
      (Provider.CreateRequestBody r).1.lookup "inventory" =
        some (Provider.JsonField.num r.InventoryID.ValueInt64)) ∧
    (r.ExtraVars.ValueString ≠ "" →
      (Provider.CreateRequestBody r).1.lookup "extra_vars" =
        some (Provider.JsonField.str r.ExtraVars.ValueString)) ∧
    (r.ExtraVars.ValueString = "" →
      (Provider.CreateRequestBody r).1.lookup "extra_vars" = none) := by
  refine ⟨rfl, ?_, ?_, ?_, ?_⟩
  · intro h0
    by_cases he : r.ExtraVars.ValueString = "" <;>
      simp [Provider.CreateRequestBody, Provider.marshalJobAPIModel, h0, he, List.lookup]
  · intro h0
    by_cases he : r.ExtraVars.ValueString = "" <;>
      simp [Provider.CreateRequestBody, Provider.marshalJobAPIModel, h0, he, List.lookup]
  · intro he
    by_cases h0 : r.InventoryID.ValueInt64 = 0 <;>
      simp [Provider.CreateRequestBody, Provider.marshalJobAPIModel, h0, he, List.lookup]
  · intro he
    by_cases h0 : r.InventoryID.ValueInt64 = 0 <;>
      simp [Provider.CreateRequestBody, Provider.marshalJobAPIModel, h0, he, List.lookup]

/-- C9 witness: inventory 5 is carried as 5 with the nonempty extra vars
verbatim, and inventory 0 is carried as the default 1. -/
theorem C9_request_body_witness :
    (Provider.CreateRequestBody Provider.planWait).1.lookup "inventory" =
      some (Provider.JsonField.num 5) ∧
    (Provider.CreateRequestBody Provider.planWait).1.lookup "extra_vars" =
      some (Provider.JsonField.str "foo: bar") ∧
    (Provider.CreateRequestBody
      { InventoryID := Provider.TFInt64.value 0 }).1.lookup "inventory" =
      some (Provider.JsonField.num 1) := by
  have h1 := C9_request_body Provider.planWait
  have h2 := C9_request_body { InventoryID := Provider.TFInt64.value 0 }
  exact ⟨h1.2.2.1 (by decide), h1.2.2.2.1 (by decide), h2.2.1 rfl⟩

/-- C10: the ignored-fields reporter maps keys through the rename table
(names absent from the table pass through unchanged), discards values — any
value under "inventory" yields exactly the list ["inventory"] — and the empty
map yields the null list, the single empty representation: a zero-length
`types.ListValue` is never produced. -/
theorem C10_ignored_fields (α : Type) (m : List (String × α)) :
    (∀ v : α, Provider.ParseIgnoredFields [("inventory", v)] =
      (Provider.TFList.value ["inventory"], [])) ∧
    Provider.ParseIgnoredFields ([] : List (String × α)) = (Provider.TFList.null, []) ∧
    (m ≠ [] → (Provider.ParseIgnoredFields m).1 =
      Provider.TFList.value (m.map (fun kv => Provider.translateKey kv.1))) ∧
    (Provider.ParseIgnoredFields m).1 ≠ Provider.TFList.value [] ∧
    (∀ k, Provider.keyMapping.lookup k = none → Provider.translateKey k = k) := by
  refine ⟨fun v => rfl, rfl, ?_, ?_, ?_⟩
  · intro hm
    cases m with
    | nil => exact absurd rfl hm
    | cons kv rest => simp [Provider.ParseIgnoredFields]
  · cases m with
    | nil => simp [Provider.ParseIgnoredFields]
    | cons kv rest => simp [Provider.ParseIgnoredFields]
  · intro k h
    simp [Provider.translateKey, h]

/-- C10 witness: the singleton "inventory" map yields exactly ["inventory"],
the empty map yields the null list, and a two-key map yields both translated
names. -/
theorem C10_ignored_fields_witness :
    Provider.ParseIgnoredFields [("inventory", Provider.GoValue.str "anything")] =
      (Provider.TFList.value ["inventory"], []) ∧
    Provider.ParseIgnoredFields ([] : List (String × Provider.GoValue)) =
      (Provider.TFList.null, []) ∧
    (Provider.ParseIgnoredFields
      [("inventory", Provider.GoValue.str "x"), ("limit", Provider.GoValue.num 5)]).1 =
      Provider.TFList.value ["inventory", "limit"] := by
  have h := C10_ignored_fields Provider.GoValue
    [("inventory", Provider.GoValue.str "x"), ("limit", Provider.GoValue.num 5)]
  exact ⟨h.1 (Provider.GoValue.str "anything"), h.2.1, h.2.2.1 (by simp)⟩
